import Mathlib

/-!
Verification development for the shoppable-video repository.

Shallow embedding of the three algorithmic fragments described by the spec:
the video discovery / deduplication pipeline (`VideoQueuer.get_videos` in
src/pipeline/video_inventory_analysis/queue_videos/queue_videos_lib.py),
the listing-group reconciliation logic (`AdsService` in
src/webapp/backend/cloud_run/ads_service.py), and the batch job loop
(src/webapp/backend/cloud_run/main.py), together with the `Video` data model
(src/shared/common.py).

External collaborators (BigQuery, Sheets, Cloud Storage, the YouTube data API
and the Google Ads API) are modelled as explicit inputs: the rows / lookup
tables they would return are parameters of the embedded functions.
-/

set_option autoImplicit false

namespace ShoppableVideo

/-! ## Data model (src/shared/common.py) -/

/-- Enum `Source` from src/shared/common.py (values google_ads, gcs,
manual_entry). -/
inductive Source where
  | google_ads
  | gcs
  | manual_entry
deriving DecidableEq, Repr

/-- Modelled from the spec: the `VideoMetadata` record carrying the display
title attached to a matched public video.  The class is referenced by
queue_videos_lib.py (`common.VideoMetadata`) but its declaration is not among
the source files; the spec says only that a matched public item "has its
display title attached". -/
structure VideoMetadata where
  title : String
deriving DecidableEq, Repr

/-- The `Video` dataclass of src/shared/common.py, after `__post_init__` has
run.  All optional string fields are `Option String`; `metadata` is the
spec-modelled metadata record (absent fields are `none`). -/
structure Video where
  source : Source
  uuid : Option String
  video_id : Option String
  gcs_uri : Option String
  md5_hash : Option String
  metadata : Option VideoMetadata
deriving DecidableEq, Repr

/-- Models the deterministic name-based hash `uuid.uuid5(uuid.NAMESPACE_URL,
seed)` used by `Video.__post_init__`.  `uuid5` is Python standard-library
code, not repository code; the only property the spec relies on is that it is
a fixed deterministic function of the seed, which any Lean function has. -/
def uuid5 (seed : String) : String :=
  "uuid5:" ++ seed

/-- `Video.__post_init__` (src/shared/common.py lines 93-121) as a fallible
constructor: validates the argument combination and derives `uuid`.
Mirrors the source exactly: if `video_id` is not None, any GCS data raises
"Ambiguous"; else if both `gcs_uri` and `md5_hash` are present the uuid is
derived from their concatenation; otherwise raises "Missing". -/
def Video.post_init (source : Source) (uuid video_id gcs_uri md5_hash : Option String)
    (metadata : Option VideoMetadata) : Except String Video :=
  match video_id with
  | some vid =>
      if gcs_uri.isSome || md5_hash.isSome then
        Except.error "Ambiguous: Cannot provide both video_id and GCS data."
      else
        Except.ok { source := source, uuid := some (uuid.getD vid),
                    video_id := some vid, gcs_uri := none, md5_hash := none,
                    metadata := metadata }
  | none =>
      match gcs_uri, md5_hash with
      | some g, some m =>
          Except.ok { source := source,
                      uuid := some (uuid.getD (uuid5 (g ++ m))),
                      video_id := none, gcs_uri := some g, md5_hash := some m,
                      metadata := metadata }
      | _, _ =>
          Except.error "Missing: Must provide either video_id or (gcs_uri + md5_hash)."

/-- The claim wording "exactly one of {video_id, (gcs_uri AND md5_hash)} is
set", read literally: exclusive-or of the two conditions. -/
def exactly_one_set (video_id gcs_uri md5_hash : Option String) : Bool :=
  xor video_id.isSome (gcs_uri.isSome && md5_hash.isSome)

/-! ## VideoQueuer.get_videos
(src/pipeline/video_inventory_analysis/queue_videos/queue_videos_lib.py) -/

/-- Python truthiness of an `Optional[str]`: `None` and the empty string are
falsy.  Used by the dedup pass (`if video.video_id:` / `elif video.gcs_uri:`,
queue_videos_lib.py lines 151 and 158). -/
def optStrTruthy : Option String → Bool
  | none => false
  | some s => !(s == "")

/-- The deduplication pass of `get_videos` (queue_videos_lib.py lines
146-165): one left-to-right walk over the collected candidates, threading the
`seen_video_ids` / `seen_gcs_uris` accumulators; a candidate with a truthy
`video_id` is dropped when that id is processed or already seen, a candidate
with a falsy `video_id` but truthy `gcs_uri` likewise for its uri; every kept
candidate is appended to `unprocessed_videos` in source order. -/
def dedup_go (processed_video_ids processed_gcs_uris : List String)
    (seen_video_ids seen_gcs_uris : List String) : List Video → List Video
  | [] => []
  | video :: rest =>
      if optStrTruthy video.video_id then
        let vid := video.video_id.getD ""
        if processed_video_ids.contains vid || seen_video_ids.contains vid then
          dedup_go processed_video_ids processed_gcs_uris
            seen_video_ids seen_gcs_uris rest
        else
          video :: dedup_go processed_video_ids processed_gcs_uris
            (vid :: seen_video_ids) seen_gcs_uris rest
      else if optStrTruthy video.gcs_uri then
        let g := video.gcs_uri.getD ""
        if processed_gcs_uris.contains g || seen_gcs_uris.contains g then
          dedup_go processed_video_ids processed_gcs_uris
            seen_video_ids seen_gcs_uris rest
        else
          video :: dedup_go processed_video_ids processed_gcs_uris
            seen_video_ids (g :: seen_gcs_uris) rest
      else
        video :: dedup_go processed_video_ids processed_gcs_uris
          seen_video_ids seen_gcs_uris rest

/-- The dedup key of the pass in `dedup_go`: the truthy `video_id` (tagged
`inl`) when present, else the truthy `gcs_uri` (tagged `inr`); candidates
with neither carry no key and bypass deduplication. -/
def dedup_key (v : Video) : Option (String ⊕ String) :=
  if optStrTruthy v.video_id then some (Sum.inl (v.video_id.getD ""))
  else if optStrTruthy v.gcs_uri then some (Sum.inr (v.gcs_uri.getD ""))
  else none

/-- Sets `video.metadata = VideoMetadata(title=title)` (queue_videos_lib.py
line 185). -/
def attach_title (title : String) (v : Video) : Video :=
  { v with metadata := some { title := title } }

/-- Removes the first element equal to `a` (Python `list.remove`, used at
queue_videos_lib.py line 183; the element is always present there). -/
def eraseFirst (a : Video) : List Video → List Video
  | [] => []
  | x :: xs => if x = a then xs else x :: eraseFirst a xs

/-- In-place mutation of the shared `Video` object (`video.metadata = ...`)
seen from the `unprocessed_videos` list: the first occurrence of the old
value is replaced by the updated value. -/
def replaceFirst (a b : Video) : List Video → List Video
  | [] => []
  | x :: xs => if x = a then b :: xs else x :: replaceFirst a b xs

/-- One iteration of the public-visibility loop of `get_videos`
(queue_videos_lib.py lines 175-185), acting on the current
`unprocessed_videos` list.  `video_info` is the id-to-(privacyStatus, title)
lookup built by `_get_youtube_video_info`; an id missing from the lookup
leaves the list unchanged, a non-public status removes the video, a public
status attaches the title. -/
def vis_step (video_info : String → Option (String × String))
    (unprocessed : List Video) (video : Video) : List Video :=
  match video.video_id with
  | none => unprocessed
  | some vid =>
      match video_info vid with
      | none => unprocessed
      | some (privacy_status, title) =>
          if privacy_status != "public" then eraseFirst video unprocessed
          else replaceFirst video (attach_title title video) unprocessed

/-- The public-visibility filter of `get_videos` (queue_videos_lib.py lines
167-192): the loop runs over the sub-list of videos carrying a YouTube id
(`video_id is not None`), mutating `unprocessed_videos`. -/
def vis_pass (video_info : String → Option (String × String))
    (unprocessed_videos : List Video) : List Video :=
  (unprocessed_videos.filter (fun v => v.video_id.isSome)).foldl
    (vis_step video_info) unprocessed_videos

/-- Functional characterisation of one video under the visibility filter:
kept unchanged when it has no YouTube id or no lookup entry, dropped when its
looked-up status is not "public", kept with the title attached otherwise. -/
def vis_filter_step (video_info : String → Option (String × String))
    (v : Video) : Option Video :=
  match v.video_id with
  | none => some v
  | some vid =>
      match video_info vid with
      | none => some v
      | some (privacy_status, title) =>
          if privacy_status != "public" then none
          else some (attach_title title v)

/-- `VideoQueuer.get_videos` (queue_videos_lib.py lines 125-194).
The external reads are parameters: `sheet_videos` is the contribution of
`_get_videos_from_google_sheet` (empty when no spreadsheet is configured),
`ads_videos` of `_get_videos_from_google_ads` (empty when no customer id is
configured), `processed_video_ids` / `processed_gcs_uris` are the two lists
returned by `_get_processed_videos`, and `video_info` is the lookup built by
`_get_youtube_video_info`.  Note the collection order of the source: the
sheet contribution is extended first (line 140), the ads contribution second
(line 142). -/
def get_videos (sheet_videos ads_videos : List Video)
    (processed_video_ids processed_gcs_uris : List String)
    (video_info : String → Option (String × String))
    (video_limit : Nat) : List Video :=
  let videos := sheet_videos ++ ads_videos
  let unprocessed_videos :=
    dedup_go processed_video_ids processed_gcs_uris [] [] videos
  (vis_pass video_info unprocessed_videos).take video_limit

/-- The chunking of `_get_youtube_video_info` (queue_videos_lib.py lines
345-347): `[video_ids[i : i + 50] for i in range(0, len(video_ids), 50)]`.
Each chunk is the payload of one `videos().list` API call. -/
def video_ids_chunks {α : Type} (video_ids : List α) : List (List α) :=
  (List.range' 0 ((video_ids.length + 49) / 50) 50).map
    (fun i => (video_ids.drop i).take 50)

/-! ## AdsService (src/webapp/backend/cloud_run/ads_service.py) -/

/-- The listing-group type enum values used by the service. -/
inductive ListingGroupType where
  | subdivision
  | unit
deriving DecidableEq, Repr

/-- Criterion status; the service only ever sets ENABLED. -/
inductive AdGroupCriterionStatus where
  | enabled
deriving DecidableEq, Repr

/-- The listing-group fields of an ad-group criterion as set by the service.
`case_value_product_item_id` is `none` when no case value is set, `some none`
for an empty `ProductItemIdInfo` (the catch-all leaf, ads_service.py lines
203-205), and `some (some offer)` for an offer leaf (line 233). -/
structure ListingGroupInfo where
  type_ : ListingGroupType
  parent_ad_group_criterion : Option String
  case_value_product_item_id : Option (Option String)
deriving DecidableEq, Repr

/-- The fields of an `AdGroupCriterion` that the service populates. -/
structure AdGroupCriterion where
  resource_name : Option String
  ad_group : String
  status : AdGroupCriterionStatus
  cpc_bid_micros : Option Int
  listing_group : ListingGroupInfo
deriving DecidableEq, Repr

/-- An `AdGroupCriterionOperation`: either a create (with the populated
criterion) or a remove (of a resource name). -/
inductive AdsOp where
  | create (criterion : AdGroupCriterion)
  | remove (resource_name : String)
deriving DecidableEq, Repr

/-- Resource path helper of the Google Ads client library
(`AdGroupService.ad_group_path`). -/
def ad_group_path (customer_id : String) (ad_group_id : Int) : String :=
  "customers/" ++ customer_id ++ "/adGroups/" ++ toString ad_group_id

/-- Resource path helper of the Google Ads client library
(`AdGroupCriterionService.ad_group_criterion_path`). -/
def ad_group_criterion_path (customer_id ad_group_id criterion_id : String) : String :=
  "customers/" ++ customer_id ++ "/adGroupCriteria/" ++ ad_group_id ++ "~" ++ criterion_id

/-- The temporary resource name used for a freshly created root
(`ad_group_criterion_path(customer_id, str(ad_group_id), str(-1))`,
ads_service.py lines 172-177). -/
def temp_root_path (customer_id : String) (ad_group_id : Int) : String :=
  ad_group_criterion_path customer_id (toString ad_group_id) (toString (-1 : Int))

/-- The create operation for the new SUBDIVISION root (`op_root`,
ads_service.py lines 179-188). -/
def root_create_op (ad_group_id : Int) (customer_id : String) : AdsOp :=
  AdsOp.create
    { resource_name := some (temp_root_path customer_id ad_group_id),
      ad_group := ad_group_path customer_id ad_group_id,
      status := AdGroupCriterionStatus.enabled,
      cpc_bid_micros := none,
      listing_group :=
        { type_ := ListingGroupType.subdivision,
          parent_ad_group_criterion := none,
          case_value_product_item_id := none } }

/-- The create operation for the catch-all UNIT leaf with an empty
`ProductItemIdInfo` case value (`op_other`, ads_service.py lines 190-207). -/
def catchall_create_op (ad_group_id : Int) (cpc_bid_micros : Int)
    (customer_id : String) : AdsOp :=
  AdsOp.create
    { resource_name := none,
      ad_group := ad_group_path customer_id ad_group_id,
      status := AdGroupCriterionStatus.enabled,
      cpc_bid_micros := some cpc_bid_micros,
      listing_group :=
        { type_ := ListingGroupType.unit,
          parent_ad_group_criterion := some (temp_root_path customer_id ad_group_id),
          case_value_product_item_id := some none } }

/-- `AdsService._handle_root_node` (ads_service.py lines 131-209).  Given the
root lookup result (resource name and type as returned by
`get_listing_group_root`, both `none` when no root exists), returns
`(effective_root_resource_name, operations, is_new_root)`.  When the root is
absent (falsy resource name) or of kind UNIT, a removal of the existing node
(if any) is emitted, followed by a create of a SUBDIVISION root at the
temporary id -1 and a create of the catch-all UNIT leaf beneath it. -/
def handle_root_node (ad_group_id : Int) (root_resource_name : Option String)
    (root_type : Option ListingGroupType) (cpc_bid_micros : Int)
    (customer_id : String) :
    Option String × List AdsOp × Bool :=
  if !(optStrTruthy root_resource_name) ||
      root_type == some ListingGroupType.unit then
    let remove_ops : List AdsOp :=
      if optStrTruthy root_resource_name then
        [AdsOp.remove (root_resource_name.getD "")]
      else []
    (some (temp_root_path customer_id ad_group_id),
     remove_ops ++ [root_create_op ad_group_id customer_id,
       catchall_create_op ad_group_id cpc_bid_micros customer_id],
     true)
  else
    (root_resource_name, [], false)

/-- `AdsService._create_offer_operation` (ads_service.py lines 211-235). -/
def create_offer_operation (ad_group_id : Int) (offer_id : String)
    (root_resource_name : String) (cpc_bid_micros : Int)
    (customer_id : String) : AdsOp :=
  AdsOp.create
    { resource_name := none,
      ad_group := ad_group_path customer_id ad_group_id,
      status := AdGroupCriterionStatus.enabled,
      cpc_bid_micros := some cpc_bid_micros,
      listing_group :=
        { type_ := ListingGroupType.unit,
          parent_ad_group_criterion := some root_resource_name,
          case_value_product_item_id := some (some offer_id) } }

/-- Python `list(set(offer_ids))` (ads_service.py line 286): the distinct
values of the list.  Python set iteration order is unspecified; the model
keeps first-occurrence order, and no theorem below depends on that order. -/
def py_set_go (seen : List String) : List String → List String
  | [] => []
  | a :: rest =>
      if seen.contains a then py_set_go seen rest
      else a :: py_set_go (a :: seen) rest

/-- See `py_set_go`. -/
def py_set_list (l : List String) : List String :=
  py_set_go [] l

/-- Result of one `add_offers_to_ad_group` call: the operation batch handed
to `mutate_ad_group_criteria`, and whether that network call was issued at
all (ads_service.py lines 298-300 skip it when the batch is empty, which is
the "success with zero changes" report). -/
structure MutateOutcome where
  operations : List AdsOp
  mutate_called : Bool
deriving DecidableEq, Repr

/-- `AdsService.add_offers_to_ad_group` (ads_service.py lines 237-322) up to
the commit decision.  The two platform reads are parameters: the root lookup
result (`root_resource_name`, `root_type`, from `get_listing_group_root`) and
`existing_offers_fetch` (what `get_existing_offers` would return for the
existing root; consulted only when the root is reused).  The offer list is
collapsed with `list(set(...))`, offers already present are skipped, each
remaining offer becomes one UNIT-leaf create operation. -/
def add_offers_to_ad_group (ad_group_id : Int) (offer_ids : List String)
    (root_resource_name : Option String) (root_type : Option ListingGroupType)
    (existing_offers_fetch : List String) (customer_id : String)
    (cpc_bid_micros : Option Int) : MutateOutcome :=
  let effective_cpc_bid_micros := cpc_bid_micros.getD 10000
  let handled :=
    handle_root_node ad_group_id root_resource_name root_type
      effective_cpc_bid_micros customer_id
  let effective_root := handled.1
  let root_ops := handled.2.1
  let is_new_root := handled.2.2
  let existing_offers := if is_new_root then [] else existing_offers_fetch
  let distinct_offer_ids := py_set_list offer_ids
  let leaf_ops :=
    (distinct_offer_ids.filter
      (fun offer_id => !(existing_offers.contains offer_id))).map
      (fun offer_id =>
        create_offer_operation ad_group_id offer_id (effective_root.getD "")
          effective_cpc_bid_micros customer_id)
  let operations := root_ops ++ leaf_ops
  if operations.isEmpty then { operations := [], mutate_called := false }
  else { operations := operations, mutate_called := true }

/-- An operation that creates the UNIT leaf for the given offer id. -/
def is_create_for_offer (offer_id : String) : AdsOp → Prop
  | AdsOp.create c =>
      c.listing_group.case_value_product_item_id = some (some offer_id)
  | AdsOp.remove _ => False

/-- An operation that creates a SUBDIVISION node. -/
def is_create_subdivision : AdsOp → Prop
  | AdsOp.create c => c.listing_group.type_ = ListingGroupType.subdivision
  | AdsOp.remove _ => False

/-- An operation that creates the catch-all UNIT leaf (empty
`ProductItemIdInfo` case value) under the given parent. -/
def is_create_catchall (parent : String) : AdsOp → Prop
  | AdsOp.create c =>
      c.listing_group.type_ = ListingGroupType.unit ∧
      c.listing_group.parent_ad_group_criterion = some parent ∧
      c.listing_group.case_value_product_item_id = some none
  | AdsOp.remove _ => False

/-- An operation that creates some offer leaf (a UNIT node whose case value
carries an offer id). -/
def is_offer_leaf (op : AdsOp) : Prop :=
  ∃ offer_id, is_create_for_offer offer_id op

/-- A remove operation. -/
def is_remove : AdsOp → Prop
  | AdsOp.create _ => False
  | AdsOp.remove _ => True

instance (offer_id : String) (op : AdsOp) : Decidable (is_create_for_offer offer_id op) := by
  cases op <;> simp [is_create_for_offer] <;> infer_instance

instance (op : AdsOp) : Decidable (is_create_subdivision op) := by
  cases op <;> simp [is_create_subdivision] <;> infer_instance

instance (parent : String) (op : AdsOp) : Decidable (is_create_catchall parent op) := by
  cases op <;> simp [is_create_catchall] <;> infer_instance

instance (op : AdsOp) : Decidable (is_remove op) := by
  cases op <;> simp [is_remove] <;> infer_instance

/-! ## Cloud Run job loop (src/webapp/backend/cloud_run/main.py) -/

/-- Modelled from the spec: the tri-state request status constants
STATUS_SUCCESS / STATUS_PARTIAL_SUCCESS / STATUS_FAILED referenced by
main.py via the `constants` module, whose declaration is not among the
source files; per the spec the job "reports a tri-state result per
originating request: full success, partial success, or total failure". -/
inductive JobStatus where
  | success
  | partial_success
  | failed
deriving DecidableEq, Repr

/-- `_calculate_status_for_products` (main.py lines 23-48): empty list is
success; a mix of failed and non-failed entries is partial success; only
failed entries is failure; otherwise success. -/
def calculate_status_for_products (products : List JobStatus) : JobStatus :=
  if products.isEmpty then JobStatus.success
  else
    let has_failure := products.any (fun p => p == JobStatus.failed)
    let has_success := products.any (fun p => p != JobStatus.failed)
    if has_success && has_failure then JobStatus.partial_success
    else if has_failure then JobStatus.failed
    else JobStatus.success

/-- `AdGroupUpdate` (src/webapp/backend/cloud_run/bigquery_service.py lines
14-33). -/
structure AdGroupUpdate where
  ad_group_id : Int
  campaign_id : Int
  cpc_bid_micros : Option Int
  customer_id : Int
  offer_ids : List String
  request_uuid : String
  video_analysis_uuid : String
deriving DecidableEq, Repr

/-- The update-processing loop of `main` (main.py lines 127-142), as the
source behaves: `ads_service.add_offers_to_ad_group` re-raises
`GoogleAdsException` on a platform mutation failure (ads_service.py lines
311-322), the loop body has no per-update exception handler, and the whole
loop runs inside one try/except that logs and re-raises (main.py lines
118-150), so the first failing ad group aborts the job before
`_record_job_status` (main.py line 144) runs.  `mutate_fails` is the
platform behaviour per ad-group id.  Returns the list of ad-group ids whose
processing was attempted, and the job outcome. -/
def process_updates (mutate_fails : Int → Bool) :
    List AdGroupUpdate → List Int × Except String Unit
  | [] => ([], Except.ok ())
  | u :: rest =>
      if mutate_fails u.ad_group_id then
        ([u.ad_group_id], Except.error "GoogleAdsException")
      else
        let r := process_updates mutate_fails rest
        (u.ad_group_id :: r.1, r.2)

/-! ## Sample inputs used by concrete counterexamples and witnesses -/

/-- A sheet-sourced YouTube video carrying id "s". -/
def vidS : Video :=
  { source := Source.manual_entry, uuid := some "s", video_id := some "s",
    gcs_uri := none, md5_hash := none, metadata := none }

/-- An ads-sourced YouTube video carrying id "a". -/
def vidA : Video :=
  { source := Source.google_ads, uuid := some "a", video_id := some "a",
    gcs_uri := none, md5_hash := none, metadata := none }

/-- The pipeline as worded by the claim under test: identical to
`get_videos` except that the candidate list is collected with ads-source
items before sheet-source items. -/
def get_videos_ads_first (sheet_videos ads_videos : List Video)
    (pv pg : List String) (video_info : String → Option (String × String))
    (limit : Nat) : List Video :=
  ((dedup_go pv pg [] [] (ads_videos ++ sheet_videos)).filterMap
    (vis_filter_step video_info)).take limit

/-- A concrete lookup table for the C5 witness: video "s" is public with a
title, video "a" is private. -/
def video_info_W : String → Option (String × String) := fun vid =>
  if vid == "s" then some ("public", "Title S") else some ("private", "T")

/-- A pending update whose platform mutation will fail. -/
def upd1 : AdGroupUpdate :=
  { ad_group_id := 1, campaign_id := 10, cpc_bid_micros := none,
    customer_id := 100, offer_ids := ["A"], request_uuid := "r1",
    video_analysis_uuid := "va1" }

/-- A second pending update of the same request, behind upd1 in the batch. -/
def upd2 : AdGroupUpdate :=
  { ad_group_id := 2, campaign_id := 10, cpc_bid_micros := none,
    customer_id := 100, offer_ids := ["B"], request_uuid := "r1",
    video_analysis_uuid := "va2" }

/-! ## Lemmas: the visibility loop is a filterMap -/

theorem vis_filter_step_of_id_none (video_info : String → Option (String × String))
    (v : Video) (hv : v.video_id = none) :
    vis_filter_step video_info v = some v := by
  simp [vis_filter_step, hv]

theorem vis_filter_step_of_no_info (video_info : String → Option (String × String))
    (v : Video) (vid : String) (hv : v.video_id = some vid)
    (hi : video_info vid = none) :
    vis_filter_step video_info v = some v := by
  simp [vis_filter_step, hv, hi]

theorem vis_filter_step_of_nonpublic (video_info : String → Option (String × String))
    (v : Video) (vid ps t : String) (hv : v.video_id = some vid)
    (hi : video_info vid = some (ps, t)) (hp : ps ≠ "public") :
    vis_filter_step video_info v = none := by
  simp [vis_filter_step, hv, hi, hp]

theorem vis_filter_step_of_public (video_info : String → Option (String × String))
    (v : Video) (vid t : String) (hv : v.video_id = some vid)
    (hi : video_info vid = some ("public", t)) :
    vis_filter_step video_info v = some (attach_title t v) := by
  simp [vis_filter_step, hv, hi]

theorem vis_step_of_id_none (video_info : String → Option (String × String))
    (s : List Video) (v : Video) (hv : v.video_id = none) :
    vis_step video_info s v = s := by
  simp [vis_step, hv]

theorem vis_step_of_no_info (video_info : String → Option (String × String))
    (s : List Video) (v : Video) (vid : String) (hv : v.video_id = some vid)
    (hi : video_info vid = none) :
    vis_step video_info s v = s := by
  simp [vis_step, hv, hi]

theorem vis_step_of_nonpublic (video_info : String → Option (String × String))
    (s : List Video) (v : Video) (vid ps t : String) (hv : v.video_id = some vid)
    (hi : video_info vid = some (ps, t)) (hp : ps ≠ "public") :
    vis_step video_info s v = eraseFirst v s := by
  simp [vis_step, hv, hi, hp]

theorem vis_step_of_public (video_info : String → Option (String × String))
    (s : List Video) (v : Video) (vid t : String) (hv : v.video_id = some vid)
    (hi : video_info vid = some ("public", t)) :
    vis_step video_info s v = replaceFirst v (attach_title t v) s := by
  simp [vis_step, hv, hi]

theorem replaceFirst_cons (a b x : Video) (xs : List Video) :
    replaceFirst a b (x :: xs) = if x = a then b :: xs else x :: replaceFirst a b xs :=
  rfl

theorem eraseFirst_cons (a x : Video) (xs : List Video) :
    eraseFirst a (x :: xs) = if x = a then xs else x :: eraseFirst a xs :=
  rfl

/-- Replacing the first occurrence of an element by itself is the identity. -/
theorem replaceFirst_self (a : Video) (l : List Video) :
    replaceFirst a a l = l := by
  induction l with
  | nil => rfl
  | cons x xs ih =>
      rw [replaceFirst_cons]
      by_cases h : x = a
      · subst h; simp
      · simp [h, ih]

/-- The functional visibility step is idempotent on its own results. -/
theorem vis_filter_step_idem (video_info : String → Option (String × String))
    (x x' : Video) (h : vis_filter_step video_info x = some x') :
    vis_filter_step video_info x' = some x' := by
  cases hv : x.video_id with
  | none =>
      rw [vis_filter_step_of_id_none video_info x hv] at h
      cases h
      exact vis_filter_step_of_id_none video_info x hv
  | some vid =>
      cases hi : video_info vid with
      | none =>
          rw [vis_filter_step_of_no_info video_info x vid hv hi] at h
          cases h
          exact vis_filter_step_of_no_info video_info x vid hv hi
      | some pt =>
          obtain ⟨ps, t⟩ := pt
          by_cases hp : ps = "public"
          · subst hp
            rw [vis_filter_step_of_public video_info x vid t hv hi] at h
            cases h
            have hv' : (attach_title t x).video_id = some vid := by
              simpa [attach_title] using hv
            rw [vis_filter_step_of_public video_info _ vid t hv' hi]
            simp [attach_title]
          · rw [vis_filter_step_of_nonpublic video_info x vid ps t hv hi hp] at h
            cases h

/-- A visibility-loop iteration for some video commutes with a head element
that the functional step leaves unchanged. -/
theorem vis_step_cons_of_fixed (video_info : String → Option (String × String))
    (y v : Video) (s : List Video)
    (hy : vis_filter_step video_info y = some y) :
    vis_step video_info (y :: s) v = y :: vis_step video_info s v := by
  cases hv : v.video_id with
  | none => rw [vis_step_of_id_none video_info _ v hv,
      vis_step_of_id_none video_info s v hv]
  | some vid =>
      cases hi : video_info vid with
      | none => rw [vis_step_of_no_info video_info _ v vid hv hi,
          vis_step_of_no_info video_info s v vid hv hi]
      | some pt =>
          obtain ⟨ps, t⟩ := pt
          by_cases hp : ps = "public"
          · subst hp
            rw [vis_step_of_public video_info _ v vid t hv hi,
              vis_step_of_public video_info s v vid t hv hi,
              replaceFirst_cons]
            by_cases hyv : y = v
            · subst hyv
              have h2 := vis_filter_step_of_public video_info y vid t hv hi
              rw [hy] at h2
              have h3 : attach_title t y = y := ((Option.some.injEq _ _).mp h2).symm
              rw [if_pos rfl, h3, replaceFirst_self]
            · rw [if_neg hyv]
          · rw [vis_step_of_nonpublic video_info _ v vid ps t hv hi hp,
              vis_step_of_nonpublic video_info s v vid ps t hv hi hp,
              eraseFirst_cons]
            by_cases hyv : y = v
            · exfalso
              subst hyv
              rw [vis_filter_step_of_nonpublic video_info y vid ps t hv hi hp] at hy
              cases hy
            · rw [if_neg hyv]

/-- The whole visibility loop commutes with a fixed head element. -/
theorem foldl_vis_step_cons (video_info : String → Option (String × String))
    (yt : List Video) (y : Video) (s : List Video)
    (hy : vis_filter_step video_info y = some y) :
    yt.foldl (vis_step video_info) (y :: s) =
      y :: yt.foldl (vis_step video_info) s := by
  induction yt generalizing s with
  | nil => rfl
  | cons v vs ih =>
      simp only [List.foldl_cons]
      rw [vis_step_cons_of_fixed video_info y v s hy]
      exact ih _

/-- The imperative visibility loop of `get_videos` (iterate over the videos
with a YouTube id, removing non-public ones from the shared list and
attaching titles in place) equals a functional filterMap over the list. -/
theorem vis_pass_eq_filterMap (video_info : String → Option (String × String))
    (l : List Video) :
    vis_pass video_info l = l.filterMap (vis_filter_step video_info) := by
  unfold vis_pass
  induction l with
  | nil => rfl
  | cons x xs ih =>
      by_cases hx : x.video_id.isSome
      · obtain ⟨vid, hv⟩ := Option.isSome_iff_exists.mp hx
        rw [List.filter_cons_of_pos (by simp [hx])]
        simp only [List.foldl_cons]
        cases hi : video_info vid with
        | none =>
            have hstep := vis_filter_step_of_no_info video_info x vid hv hi
            rw [vis_step_of_no_info video_info _ x vid hv hi,
              foldl_vis_step_cons video_info _ x xs hstep, ih,
              List.filterMap_cons, hstep]
        | some pt =>
            obtain ⟨ps, t⟩ := pt
            by_cases hp : ps = "public"
            · subst hp
              have hstep := vis_filter_step_of_public video_info x vid t hv hi
              have harm : replaceFirst x (attach_title t x) (x :: xs) =
                  attach_title t x :: xs := by
                rw [replaceFirst_cons, if_pos rfl]
              rw [vis_step_of_public video_info _ x vid t hv hi, harm,
                foldl_vis_step_cons video_info _ _ xs
                  (vis_filter_step_idem video_info x _ hstep),
                ih, List.filterMap_cons, hstep]
            · have hstep := vis_filter_step_of_nonpublic video_info x vid ps t hv hi hp
              have harm : eraseFirst x (x :: xs) = xs := by
                rw [eraseFirst_cons, if_pos rfl]
              rw [vis_step_of_nonpublic video_info _ x vid ps t hv hi hp, harm,
                ih, List.filterMap_cons, hstep]
      · have hv : x.video_id = none := Option.not_isSome_iff_eq_none.mp hx
        have hstep := vis_filter_step_of_id_none video_info x hv
        rw [List.filter_cons_of_neg (by simp [hx]),
          foldl_vis_step_cons video_info _ x xs hstep, ih,
          List.filterMap_cons, hstep]

/-! ## Lemmas: the deduplication pass -/

theorem containsStr_iff (l : List String) (a : String) :
    l.contains a = true ↔ a ∈ l :=
  List.elem_iff

theorem not_mem_of_contains_false {l : List String} {a : String}
    (h : l.contains a = false) : a ∉ l := by
  intro hc
  have h2 := (containsStr_iff l a).mpr hc
  rw [h] at h2
  cases h2

theorem dedup_go_cons_vid_skip (pv pg sv sg : List String) (v : Video)
    (rest : List Video) (hv : optStrTruthy v.video_id = true)
    (hmem : (pv.contains (v.video_id.getD "") ||
      sv.contains (v.video_id.getD "")) = true) :
    dedup_go pv pg sv sg (v :: rest) = dedup_go pv pg sv sg rest := by
  simp only [dedup_go, hv, hmem, if_true]

theorem dedup_go_cons_vid_keep (pv pg sv sg : List String) (v : Video)
    (rest : List Video) (hv : optStrTruthy v.video_id = true)
    (hmem : (pv.contains (v.video_id.getD "") ||
      sv.contains (v.video_id.getD "")) = false) :
    dedup_go pv pg sv sg (v :: rest) =
      v :: dedup_go pv pg (v.video_id.getD "" :: sv) sg rest := by
  simp only [dedup_go, hv, hmem, if_true, Bool.false_eq_true, if_false]

theorem dedup_go_cons_gcs_skip (pv pg sv sg : List String) (v : Video)
    (rest : List Video) (hv : optStrTruthy v.video_id = false)
    (hg : optStrTruthy v.gcs_uri = true)
    (hmem : (pg.contains (v.gcs_uri.getD "") ||
      sg.contains (v.gcs_uri.getD "")) = true) :
    dedup_go pv pg sv sg (v :: rest) = dedup_go pv pg sv sg rest := by
  simp only [dedup_go, hv, hg, hmem, if_true, Bool.false_eq_true, if_false]

theorem dedup_go_cons_gcs_keep (pv pg sv sg : List String) (v : Video)
    (rest : List Video) (hv : optStrTruthy v.video_id = false)
    (hg : optStrTruthy v.gcs_uri = true)
    (hmem : (pg.contains (v.gcs_uri.getD "") ||
      sg.contains (v.gcs_uri.getD "")) = false) :
    dedup_go pv pg sv sg (v :: rest) =
      v :: dedup_go pv pg sv (v.gcs_uri.getD "" :: sg) rest := by
  simp only [dedup_go, hv, hg, hmem, if_true, Bool.false_eq_true, if_false]

theorem dedup_go_cons_nokey (pv pg sv sg : List String) (v : Video)
    (rest : List Video) (hv : optStrTruthy v.video_id = false)
    (hg : optStrTruthy v.gcs_uri = false) :
    dedup_go pv pg sv sg (v :: rest) = v :: dedup_go pv pg sv sg rest := by
  simp only [dedup_go, hv, hg, Bool.false_eq_true, if_false]

theorem dedup_key_of_vid (v : Video) (hv : optStrTruthy v.video_id = true) :
    dedup_key v = some (Sum.inl (v.video_id.getD "")) := by
  simp [dedup_key, hv]

theorem dedup_key_of_gcs (v : Video) (hv : optStrTruthy v.video_id = false)
    (hg : optStrTruthy v.gcs_uri = true) :
    dedup_key v = some (Sum.inr (v.gcs_uri.getD "")) := by
  simp [dedup_key, hv, hg]

theorem dedup_key_of_nokey (v : Video) (hv : optStrTruthy v.video_id = false)
    (hg : optStrTruthy v.gcs_uri = false) :
    dedup_key v = none := by
  simp [dedup_key, hv, hg]

/-- The dedup pass keeps a subsequence of its input: order is preserved and
nothing is reordered or invented. -/
theorem dedup_go_sublist (pv pg : List String) (l : List Video) :
    ∀ sv sg, (dedup_go pv pg sv sg l).Sublist l := by
  induction l with
  | nil =>
      intro sv sg
      simp [dedup_go]
  | cons w rest ih =>
      intro sv sg
      by_cases hw : optStrTruthy w.video_id = true
      · by_cases hmem : (pv.contains (w.video_id.getD "") ||
            sv.contains (w.video_id.getD "")) = true
        · rw [dedup_go_cons_vid_skip pv pg sv sg w rest hw hmem]
          exact (ih sv sg).cons w
        · rw [dedup_go_cons_vid_keep pv pg sv sg w rest hw
            (Bool.not_eq_true _ ▸ hmem)]
          exact (ih _ sg).cons₂ w
      · have hw0 : optStrTruthy w.video_id = false := Bool.not_eq_true _ ▸ hw
        by_cases hg : optStrTruthy w.gcs_uri = true
        · by_cases hmem : (pg.contains (w.gcs_uri.getD "") ||
              sg.contains (w.gcs_uri.getD "")) = true
          · rw [dedup_go_cons_gcs_skip pv pg sv sg w rest hw0 hg hmem]
            exact (ih sv sg).cons w
          · rw [dedup_go_cons_gcs_keep pv pg sv sg w rest hw0 hg
              (Bool.not_eq_true _ ▸ hmem)]
            exact (ih sv _).cons₂ w
        · have hg0 : optStrTruthy w.gcs_uri = false := Bool.not_eq_true _ ▸ hg
          rw [dedup_go_cons_nokey pv pg sv sg w rest hw0 hg0]
          exact (ih sv sg).cons₂ w

/-- Every video kept by the dedup pass has a key outside the processed
history and outside the already-seen accumulators. -/
theorem dedup_go_key_fresh (pv pg : List String) (l : List Video) :
    ∀ sv sg, ∀ v ∈ dedup_go pv pg sv sg l,
      (∀ s, dedup_key v = some (Sum.inl s) → s ∉ pv ∧ s ∉ sv) ∧
      (∀ s, dedup_key v = some (Sum.inr s) → s ∉ pg ∧ s ∉ sg) := by
  induction l with
  | nil =>
      intro sv sg v hv
      simp [dedup_go] at hv
  | cons w rest ih =>
      intro sv sg v hvmem
      by_cases hw : optStrTruthy w.video_id = true
      · by_cases hmem : (pv.contains (w.video_id.getD "") ||
            sv.contains (w.video_id.getD "")) = true
        · rw [dedup_go_cons_vid_skip pv pg sv sg w rest hw hmem] at hvmem
          exact ih sv sg v hvmem
        · have hmem0 := Bool.not_eq_true _ ▸ hmem
          rw [dedup_go_cons_vid_keep pv pg sv sg w rest hw hmem0] at hvmem
          have hor := Bool.or_eq_false_iff.mp hmem0
          have hnp : ¬ w.video_id.getD "" ∈ pv := not_mem_of_contains_false hor.1
          have hns : ¬ w.video_id.getD "" ∈ sv := not_mem_of_contains_false hor.2
          rcases List.mem_cons.mp hvmem with h | h
          · subst h
            refine ⟨fun s hs => ?_, fun s hs => ?_⟩
            · rw [dedup_key_of_vid v hw] at hs
              obtain rfl : v.video_id.getD "" = s := by
                simpa using hs
              exact ⟨hnp, hns⟩
            · rw [dedup_key_of_vid v hw] at hs
              simp at hs
          · have h2 := ih (w.video_id.getD "" :: sv) sg v h
            refine ⟨fun s hs => ?_, fun s hs => h2.2 s hs⟩
            have h3 := h2.1 s hs
            exact ⟨h3.1, fun hin => h3.2 (List.mem_cons_of_mem _ hin)⟩
      · have hw0 : optStrTruthy w.video_id = false := Bool.not_eq_true _ ▸ hw
        by_cases hg : optStrTruthy w.gcs_uri = true
        · by_cases hmem : (pg.contains (w.gcs_uri.getD "") ||
              sg.contains (w.gcs_uri.getD "")) = true
          · rw [dedup_go_cons_gcs_skip pv pg sv sg w rest hw0 hg hmem] at hvmem
            exact ih sv sg v hvmem
          · have hmem0 := Bool.not_eq_true _ ▸ hmem
            rw [dedup_go_cons_gcs_keep pv pg sv sg w rest hw0 hg hmem0] at hvmem
            have hor := Bool.or_eq_false_iff.mp hmem0
            have hnp : ¬ w.gcs_uri.getD "" ∈ pg := not_mem_of_contains_false hor.1
            have hns : ¬ w.gcs_uri.getD "" ∈ sg := not_mem_of_contains_false hor.2
            rcases List.mem_cons.mp hvmem with h | h
            · subst h
              refine ⟨fun s hs => ?_, fun s hs => ?_⟩
              · rw [dedup_key_of_gcs v hw0 hg] at hs
                simp at hs
              · rw [dedup_key_of_gcs v hw0 hg] at hs
                obtain rfl : v.gcs_uri.getD "" = s := by
                  simpa using hs
                exact ⟨hnp, hns⟩
            · have h2 := ih sv (w.gcs_uri.getD "" :: sg) v h
              refine ⟨fun s hs => h2.1 s hs, fun s hs => ?_⟩
              have h3 := h2.2 s hs
              exact ⟨h3.1, fun hin => h3.2 (List.mem_cons_of_mem _ hin)⟩
        · have hg0 : optStrTruthy w.gcs_uri = false := Bool.not_eq_true _ ▸ hg
          rw [dedup_go_cons_nokey pv pg sv sg w rest hw0 hg0] at hvmem
          rcases List.mem_cons.mp hvmem with h | h
          · subst h
            refine ⟨fun s hs => ?_, fun s hs => ?_⟩ <;>
              rw [dedup_key_of_nokey v hw0 hg0] at hs <;> cases hs
          · exact ih sv sg v h

/-- No two videos kept by the dedup pass share a dedup key. -/
theorem dedup_go_pairwise (pv pg : List String) (l : List Video) :
    ∀ sv sg, (dedup_go pv pg sv sg l).Pairwise
      (fun a b => ∀ k, dedup_key a = some k → dedup_key b ≠ some k) := by
  induction l with
  | nil =>
      intro sv sg
      simp [dedup_go]
  | cons w rest ih =>
      intro sv sg
      by_cases hw : optStrTruthy w.video_id = true
      · by_cases hmem : (pv.contains (w.video_id.getD "") ||
            sv.contains (w.video_id.getD "")) = true
        · rw [dedup_go_cons_vid_skip pv pg sv sg w rest hw hmem]
          exact ih sv sg
        · rw [dedup_go_cons_vid_keep pv pg sv sg w rest hw
            (Bool.not_eq_true _ ▸ hmem)]
          refine List.Pairwise.cons ?_ (ih _ sg)
          intro b hb k hk hk2
          rw [dedup_key_of_vid w hw] at hk
          have hfresh := (dedup_go_key_fresh pv pg rest _ sg b hb).1
            (w.video_id.getD "")
          rw [← hk] at hk2
          exact (hfresh hk2).2 (List.mem_cons_self _ _)
      · have hw0 : optStrTruthy w.video_id = false := Bool.not_eq_true _ ▸ hw
        by_cases hg : optStrTruthy w.gcs_uri = true
        · by_cases hmem : (pg.contains (w.gcs_uri.getD "") ||
              sg.contains (w.gcs_uri.getD "")) = true
          · rw [dedup_go_cons_gcs_skip pv pg sv sg w rest hw0 hg hmem]
            exact ih sv sg
          · rw [dedup_go_cons_gcs_keep pv pg sv sg w rest hw0 hg
              (Bool.not_eq_true _ ▸ hmem)]
            refine List.Pairwise.cons ?_ (ih sv _)
            intro b hb k hk hk2
            rw [dedup_key_of_gcs w hw0 hg] at hk
            have hfresh := (dedup_go_key_fresh pv pg rest sv _ b hb).2
              (w.gcs_uri.getD "")
            rw [← hk] at hk2
            exact (hfresh hk2).2 (List.mem_cons_self _ _)
        · have hg0 : optStrTruthy w.gcs_uri = false := Bool.not_eq_true _ ▸ hg
          rw [dedup_go_cons_nokey pv pg sv sg w rest hw0 hg0]
          refine List.Pairwise.cons ?_ (ih sv sg)
          intro b hb k hk
          rw [dedup_key_of_nokey w hw0 hg0] at hk
          cases hk

/-- First occurrence wins: every keyed video kept by the dedup pass is the
first video in the scanned list bearing its key. -/
theorem dedup_go_first_occ (pv pg : List String) (l : List Video) :
    ∀ sv sg, ∀ v ∈ dedup_go pv pg sv sg l, ∀ k, dedup_key v = some k →
      l.find? (fun u => decide (dedup_key u = some k)) = some v := by
  induction l with
  | nil =>
      intro sv sg v hv
      simp [dedup_go] at hv
  | cons w rest ih =>
      intro sv sg v hvmem k hk
      by_cases hw : optStrTruthy w.video_id = true
      · by_cases hmem : (pv.contains (w.video_id.getD "") ||
            sv.contains (w.video_id.getD "")) = true
        · rw [dedup_go_cons_vid_skip pv pg sv sg w rest hw hmem] at hvmem
          have hfresh := dedup_go_key_fresh pv pg rest sv sg v hvmem
          have hne : ¬ dedup_key w = some k := by
            rw [dedup_key_of_vid w hw]
            intro hkk
            rw [← hk] at hkk
            have h4 := (hfresh.1 (w.video_id.getD "") hkk.symm)
            rcases Bool.or_eq_true_iff.mp hmem with hc | hc
            · exact h4.1 ((containsStr_iff pv _).mp hc)
            · exact h4.2 ((containsStr_iff sv _).mp hc)
          rw [List.find?_cons_of_neg _ (by simpa using hne)]
          exact ih sv sg v hvmem k hk
        · rw [dedup_go_cons_vid_keep pv pg sv sg w rest hw
            (Bool.not_eq_true _ ▸ hmem)] at hvmem
          rcases List.mem_cons.mp hvmem with h | h
          · subst h
            exact List.find?_cons_of_pos _ (by simpa using hk)
          · have hfresh := dedup_go_key_fresh pv pg rest _ sg v h
            have hne : ¬ dedup_key w = some k := by
              rw [dedup_key_of_vid w hw]
              intro hkk
              rw [← hk] at hkk
              exact (hfresh.1 (w.video_id.getD "") hkk.symm).2
                (List.mem_cons_self _ _)
            rw [List.find?_cons_of_neg _ (by simpa using hne)]
            exact ih _ sg v h k hk
      · have hw0 : optStrTruthy w.video_id = false := Bool.not_eq_true _ ▸ hw
        by_cases hg : optStrTruthy w.gcs_uri = true
        · by_cases hmem : (pg.contains (w.gcs_uri.getD "") ||
              sg.contains (w.gcs_uri.getD "")) = true
          · rw [dedup_go_cons_gcs_skip pv pg sv sg w rest hw0 hg hmem] at hvmem
            have hfresh := dedup_go_key_fresh pv pg rest sv sg v hvmem
            have hne : ¬ dedup_key w = some k := by
              rw [dedup_key_of_gcs w hw0 hg]
              intro hkk
              rw [← hk] at hkk
              have h4 := (hfresh.2 (w.gcs_uri.getD "") hkk.symm)
              rcases Bool.or_eq_true_iff.mp hmem with hc | hc
              · exact h4.1 ((containsStr_iff pg _).mp hc)
              · exact h4.2 ((containsStr_iff sg _).mp hc)
            rw [List.find?_cons_of_neg _ (by simpa using hne)]
            exact ih sv sg v hvmem k hk
          · rw [dedup_go_cons_gcs_keep pv pg sv sg w rest hw0 hg
              (Bool.not_eq_true _ ▸ hmem)] at hvmem
            rcases List.mem_cons.mp hvmem with h | h
            · subst h
              exact List.find?_cons_of_pos _ (by simpa using hk)
            · have hfresh := dedup_go_key_fresh pv pg rest sv _ v h
              have hne : ¬ dedup_key w = some k := by
                rw [dedup_key_of_gcs w hw0 hg]
                intro hkk
                rw [← hk] at hkk
                exact (hfresh.2 (w.gcs_uri.getD "") hkk.symm).2
                  (List.mem_cons_self _ _)
              rw [List.find?_cons_of_neg _ (by simpa using hne)]
              exact ih sv _ v h k hk
        · have hg0 : optStrTruthy w.gcs_uri = false := Bool.not_eq_true _ ▸ hg
          rw [dedup_go_cons_nokey pv pg sv sg w rest hw0 hg0] at hvmem
          rcases List.mem_cons.mp hvmem with h | h
          · subst h
            rw [dedup_key_of_nokey v hw0 hg0] at hk
            cases hk
          · have hne : ¬ dedup_key w = some k := by
              rw [dedup_key_of_nokey w hw0 hg0]
              intro hkk
              cases hkk
            rw [List.find?_cons_of_neg _ (by simpa using hne)]
            exact ih sv sg v h k hk

/-! ## Lemmas: get_videos characterisation -/

/-- The visibility filter never changes a dedup key (it only removes videos
or updates their metadata). -/
theorem dedup_key_vis_filter_step (video_info : String → Option (String × String))
    (v w : Video) (h : vis_filter_step video_info v = some w) :
    dedup_key w = dedup_key v := by
  cases hv : v.video_id with
  | none =>
      rw [vis_filter_step_of_id_none video_info v hv] at h
      cases h
      rfl
  | some vid =>
      cases hi : video_info vid with
      | none =>
          rw [vis_filter_step_of_no_info video_info v vid hv hi] at h
          cases h
          rfl
      | some pt =>
          obtain ⟨ps, t⟩ := pt
          by_cases hp : ps = "public"
          · subst hp
            rw [vis_filter_step_of_public video_info v vid t hv hi] at h
            cases h
            simp [dedup_key, attach_title, optStrTruthy]
          · rw [vis_filter_step_of_nonpublic video_info v vid ps t hv hi hp] at h
            cases h

/-- `get_videos` is the truncation of the visibility-filtered dedup output
over the concatenation sheet-then-ads. -/
theorem get_videos_eq (sheet_videos ads_videos : List Video)
    (pv pg : List String) (video_info : String → Option (String × String))
    (limit : Nat) :
    get_videos sheet_videos ads_videos pv pg video_info limit =
      ((dedup_go pv pg [] [] (sheet_videos ++ ads_videos)).filterMap
        (vis_filter_step video_info)).take limit := by
  show ((vis_pass video_info
    (dedup_go pv pg [] [] (sheet_videos ++ ads_videos))).take limit) = _
  rw [vis_pass_eq_filterMap]

/-- A video with a YouTube id surviving the visibility filter either had no
lookup entry, or its looked-up status is "public" and its title is attached. -/
theorem filterMap_vis_public (video_info : String → Option (String × String))
    (l : List Video) (v : Video)
    (hv : v ∈ l.filterMap (vis_filter_step video_info)) (vid : String)
    (hvid : v.video_id = some vid) :
    video_info vid = none ∨
      ∃ t, video_info vid = some ("public", t) ∧
        v.metadata = some { title := t } := by
  obtain ⟨u, hu, hstep⟩ := List.mem_filterMap.mp hv
  cases huv : u.video_id with
  | none =>
      rw [vis_filter_step_of_id_none video_info u huv] at hstep
      cases hstep
      rw [huv] at hvid
      cases hvid
  | some uvid =>
      cases hinfo : video_info uvid with
      | none =>
          rw [vis_filter_step_of_no_info video_info u uvid huv hinfo] at hstep
          cases hstep
          rw [huv] at hvid
          obtain rfl : uvid = vid := by simpa using hvid
          exact Or.inl hinfo
      | some pt =>
          obtain ⟨ps, t⟩ := pt
          by_cases hp : ps = "public"
          · subst hp
            rw [vis_filter_step_of_public video_info u uvid t huv hinfo] at hstep
            cases hstep
            have : uvid = vid := by
              have h2 : (attach_title t u).video_id = some uvid := by
                simpa [attach_title] using huv
              rw [h2] at hvid
              simpa using hvid
            subst this
            exact Or.inr ⟨t, hinfo, by simp [attach_title]⟩
          · rw [vis_filter_step_of_nonpublic video_info u uvid ps t huv hinfo hp]
              at hstep
            cases hstep

/-! ## Claim C2 -/

/-- C2 (counterexample): the claim states that the candidate list puts
ads-source items before sheet-source items.  The source collects the sheet
contribution first (queue_videos_lib.py lines 139-142): with one sheet video
and one ads video, no processed history and no metadata matches, the output
is [vidS, vidA], not the [vidA, vidS] the claimed order would give. -/
theorem C2_counterexample :
    get_videos [vidS] [vidA] [] [] (fun _ => none) 5 = [vidS, vidA] ∧
    get_videos_ads_first [vidS] [vidA] [] [] (fun _ => none) 5 = [vidA, vidS] ∧
    get_videos [vidS] [vidA] [] [] (fun _ => none) 5 ≠
      get_videos_ads_first [vidS] [vidA] [] [] (fun _ => none) 5 := by
  refine ⟨by decide, by decide, by decide⟩

/-- C2 (amended): for every input, get_videos returns the first `limit`
items of the visibility-filtered deduplicated candidate list, where the
candidates preserve collection order with sheet-source items before
ads-source items, and the output length never exceeds `limit`. -/
theorem C2_output_capped_and_ordered (sheet_videos ads_videos : List Video)
    (pv pg : List String) (video_info : String → Option (String × String))
    (limit : Nat) :
    get_videos sheet_videos ads_videos pv pg video_info limit =
      ((dedup_go pv pg [] [] (sheet_videos ++ ads_videos)).filterMap
        (vis_filter_step video_info)).take limit ∧
    (get_videos sheet_videos ads_videos pv pg video_info limit).length ≤ limit := by
  refine ⟨get_videos_eq sheet_videos ads_videos pv pg video_info limit, ?_⟩
  rw [get_videos_eq]
  exact List.length_take_le _ _

/-! ## Claim C4 -/

/-- C4: the output of get_videos contains no two items with the same dedup
key and no item whose dedup key lies in the corresponding processed set;
the dedup stage is a single order-preserving left-to-right pass (its output
is a subsequence of the candidates) in which the first occurrence of each
key wins (every kept keyed item is the first candidate bearing its key). -/
theorem C4_dedup_properties (sheet_videos ads_videos : List Video)
    (pv pg : List String) (video_info : String → Option (String × String))
    (limit : Nat) :
    ((get_videos sheet_videos ads_videos pv pg video_info limit).Pairwise
      (fun a b => ∀ k, dedup_key a = some k → dedup_key b ≠ some k)) ∧
    (∀ v ∈ get_videos sheet_videos ads_videos pv pg video_info limit,
      (∀ s, dedup_key v = some (Sum.inl s) → s ∉ pv) ∧
      (∀ s, dedup_key v = some (Sum.inr s) → s ∉ pg)) ∧
    ((dedup_go pv pg [] [] (sheet_videos ++ ads_videos)).Sublist
      (sheet_videos ++ ads_videos)) ∧
    (∀ v ∈ dedup_go pv pg [] [] (sheet_videos ++ ads_videos), ∀ k,
      dedup_key v = some k →
      (sheet_videos ++ ads_videos).find?
        (fun u => decide (dedup_key u = some k)) = some v) := by
  refine ⟨?_, ?_, dedup_go_sublist pv pg _ [] [],
    fun v hv k hk => dedup_go_first_occ pv pg _ [] [] v hv k hk⟩
  · rw [get_videos_eq]
    refine List.Pairwise.sublist (List.take_sublist _ _) ?_
    refine List.Pairwise.filterMap _ ?_ (dedup_go_pairwise pv pg _ [] [])
    intro a a' hR b hb b' hb'
    intro k hk hk2
    have hkb := dedup_key_vis_filter_step video_info a b (Option.mem_def.mp hb)
    have hkb' := dedup_key_vis_filter_step video_info a' b' (Option.mem_def.mp hb')
    rw [hkb] at hk
    rw [hkb'] at hk2
    exact hR k hk hk2
  · rw [get_videos_eq]
    intro v hv
    obtain ⟨u, hu, hstep⟩ :=
      List.mem_filterMap.mp ((List.take_sublist _ _).subset hv)
    have hkey := dedup_key_vis_filter_step video_info u v hstep
    have hfresh := dedup_go_key_fresh pv pg _ [] [] u hu
    constructor
    · intro s hs
      rw [hkey] at hs
      exact (hfresh.1 s hs).1
    · intro s hs
      rw [hkey] at hs
      exact (hfresh.2 s hs).1

/-- C4 (witness): with candidates [vidS, vidA] the first-occurrence clause
instantiates to a concrete find? equation. -/
theorem C4_witness :
    ([vidS] ++ [vidA]).find?
      (fun u => decide (dedup_key u = some (Sum.inl "s"))) = some vidS :=
  (C4_dedup_properties [vidS] [vidA] [] [] (fun _ => none) 5).2.2.2 vidS
    (by decide) (Sum.inl "s") (by decide)

/-! ## Claim C5 -/

/-- C5: a platform-sourced item whose looked-up visibility is not "public"
never appears in the output of get_videos, and a platform-sourced item that
remains with a matched "public" status has its display title attached. -/
theorem C5_public_filter (sheet_videos ads_videos : List Video)
    (pv pg : List String) (video_info : String → Option (String × String))
    (limit : Nat) :
    (∀ v ∈ get_videos sheet_videos ads_videos pv pg video_info limit,
      ∀ vid ps t, v.video_id = some vid → video_info vid = some (ps, t) →
        ps = "public") ∧
    (∀ v ∈ get_videos sheet_videos ads_videos pv pg video_info limit,
      ∀ vid t, v.video_id = some vid → video_info vid = some ("public", t) →
        v.metadata = some { title := t }) := by
  have hmem : ∀ v ∈ get_videos sheet_videos ads_videos pv pg video_info limit,
      v ∈ (dedup_go pv pg [] [] (sheet_videos ++ ads_videos)).filterMap
        (vis_filter_step video_info) := by
    intro v hv
    rw [get_videos_eq] at hv
    exact (List.take_sublist _ _).subset hv
  constructor
  · intro v hv vid ps t hvid hinfo
    rcases filterMap_vis_public video_info _ v (hmem v hv) vid hvid with
      h | ⟨t', h2, _⟩
    · rw [h] at hinfo
      cases hinfo
    · rw [h2] at hinfo
      obtain ⟨h3, h4⟩ := Prod.mk.injEq .. ▸ (Option.some.injEq _ _).mp hinfo
      exact h3.symm
  · intro v hv vid t hvid hinfo
    rcases filterMap_vis_public video_info _ v (hmem v hv) vid hvid with
      h | ⟨t', h2, hmeta⟩
    · rw [h] at hinfo
      cases hinfo
    · rw [h2] at hinfo
      obtain ⟨h3, h4⟩ := Prod.mk.injEq .. ▸ (Option.some.injEq _ _).mp hinfo
      rw [← h4]
      exact hmeta

/-- C5 (witness): with `video_info_W`, the surviving copy of vidS carries
the attached title. -/
theorem C5_witness :
    (attach_title "Title S" vidS).metadata = some { title := "Title S" } :=
  (C5_public_filter [vidS] [vidA] [] [] video_info_W 5).2
    (attach_title "Title S" vidS) (by decide) "s" "Title S" (by decide) (by decide)

/-! ## Claim C8 -/

theorem chunks_flatten_aux {α : Type} (l : List α) (k : Nat) :
    ∀ s, ((List.range' s k 50).map (fun i => (l.drop i).take 50)).flatten =
      (l.drop s).take (50 * k) := by
  induction k with
  | zero => intro s; simp
  | succ n ih =>
      intro s
      rw [List.range'_succ, List.map_cons, List.flatten_cons, ih (s + 50)]
      have h50 : 50 * (n + 1) = 50 + 50 * n := by omega
      rw [h50, List.take_add, List.drop_drop]

/-- The chunks of `video_ids_chunks` concatenate back to the input: they are
a consecutive partition. -/
theorem video_ids_chunks_flatten {α : Type} (l : List α) :
    (video_ids_chunks l).flatten = l := by
  unfold video_ids_chunks
  rw [chunks_flatten_aux l ((l.length + 49) / 50) 0, List.drop_zero]
  apply List.take_of_length_le
  omega

/-- Every chunk of `video_ids_chunks` carries at most 50 identifiers. -/
theorem video_ids_chunks_le {α : Type} (l : List α) :
    ∀ c ∈ video_ids_chunks l, c.length ≤ 50 := by
  intro c hc
  unfold video_ids_chunks at hc
  obtain ⟨i, _, rfl⟩ := List.mem_map.mp hc
  exact List.length_take_le _ _

/-- C8: the metadata lookup partitions its id list into consecutive chunks
of at most 50, one `videos().list` call per chunk; 52 ids produce exactly 2
calls of sizes 50 and 2. -/
theorem C8_chunking :
    (∀ (ids : List String), (video_ids_chunks ids).flatten = ids ∧
      ∀ c ∈ video_ids_chunks ids, c.length ≤ 50) ∧
    (video_ids_chunks (List.range 52)).length = 2 ∧
    (video_ids_chunks (List.range 52)).map List.length = [50, 2] := by
  exact ⟨fun ids => ⟨video_ids_chunks_flatten ids, video_ids_chunks_le ids⟩,
    by decide, by decide⟩

/-- C8 (witness): the partition clause instantiated at a concrete id list. -/
theorem C8_witness :
    (video_ids_chunks ["a", "b"]).flatten = ["a", "b"] ∧
    ["a", "b"].length ≤ 50 :=
  ⟨(C8_chunking.1 ["a", "b"]).1,
   (C8_chunking.1 ["a", "b"]).2 ["a", "b"] (by decide)⟩

/-! ## Claim C9 -/

/-- C9 (counterexample): with video_id = "v", gcs_uri = "g" and no md5_hash,
exactly one of {video_id, (gcs_uri AND md5_hash)} is set in the sense of the
claim, yet construction raises the "Ambiguous" error: `__post_init__`
rejects any GCS field alongside video_id, not just the complete pair. -/
theorem C9_counterexample :
    exactly_one_set (some "v") (some "g") none = true ∧
    Video.post_init Source.manual_entry none (some "v") (some "g") none none =
      Except.error "Ambiguous: Cannot provide both video_id and GCS data." :=
  ⟨rfl, rfl⟩

/-- C9 (amended): construction succeeds iff either video_id alone is set
(with both GCS fields absent) or both gcs_uri and md5_hash are set without
video_id; on success without an explicit uuid, the uuid equals video_id when
present and otherwise the deterministic name-based hash of
gcs_uri ++ md5_hash, so equal (gcs_uri, md5_hash) pairs give equal uuids. -/
theorem C9_constructor (source : Source) (metadata : Option VideoMetadata) :
    (∀ (uuid video_id gcs_uri md5_hash : Option String),
      (∃ v, Video.post_init source uuid video_id gcs_uri md5_hash metadata =
        Except.ok v) ↔
      ((video_id.isSome ∧ gcs_uri = none ∧ md5_hash = none) ∨
       (video_id = none ∧ gcs_uri.isSome ∧ md5_hash.isSome))) ∧
    (∀ vid v, Video.post_init source none (some vid) none none metadata =
        Except.ok v → v.uuid = some vid) ∧
    (∀ g m v, Video.post_init source none none (some g) (some m) metadata =
        Except.ok v → v.uuid = some (uuid5 (g ++ m))) ∧
    (∀ (s2 : Source) (m2 : Option VideoMetadata) (g m : String) (v w : Video),
      Video.post_init source none none (some g) (some m) metadata = Except.ok v →
      Video.post_init s2 none none (some g) (some m) m2 = Except.ok w →
      v.uuid = w.uuid) := by
  refine ⟨?_, ?_, ?_, ?_⟩
  · intro uuid video_id gcs_uri md5_hash
    rcases video_id with _ | vid
    · rcases gcs_uri with _ | g
      · simp [Video.post_init]
      · rcases md5_hash with _ | m
        · simp [Video.post_init]
        · simp [Video.post_init]
    · rcases gcs_uri with _ | g
      · rcases md5_hash with _ | m
        · simp [Video.post_init]
        · simp [Video.post_init]
      · simp [Video.post_init]
  · intro vid v h
    have h2 := (Except.ok.injEq _ _).mp h.symm
    subst h2
    rfl
  · intro g m v h
    have h2 := (Except.ok.injEq _ _).mp h.symm
    subst h2
    rfl
  · intro s2 m2 g m v w hv hw
    have h2 := (Except.ok.injEq _ _).mp hv.symm
    have h3 := (Except.ok.injEq _ _).mp hw.symm
    subst h2
    subst h3
    rfl

/-- C9 (witness): a concrete successful construction from video_id "v"
derives uuid "v". -/
theorem C9_witness :
    ({ source := Source.manual_entry, uuid := some "v", video_id := some "v",
       gcs_uri := none, md5_hash := none, metadata := none } : Video).uuid =
      some "v" :=
  (C9_constructor Source.manual_entry none).2.1 "v" _ rfl

/-! ## Claim C1 -/

/-- C1 (code behaviour at the failing input): with two pending updates whose
first ad group fails its platform mutation, the job loop aborts after the
first update — ad group 2 is never attempted and the job ends in error, so
no per-request status is recorded; the tri-state computation itself
(`_calculate_status_for_products`) does map a mixed product list to partial
success, but is unreachable on this path. -/
theorem C1_failure_aborts_job :
    process_updates (fun i => i == 1) [upd1, upd2] =
      ([1], Except.error "GoogleAdsException") ∧
    upd2.ad_group_id ∉ (process_updates (fun i => i == 1) [upd1, upd2]).1 ∧
    calculate_status_for_products [JobStatus.success, JobStatus.failed] =
      JobStatus.partial_success := by
  exact ⟨rfl, by decide, rfl⟩

/-! ## Lemmas: listing-group reconciliation scenarios -/

theorem handle_root_node_subdivision (ad_group_id : Int) (rn : String)
    (cpc : Int) (cid : String) (hrn : optStrTruthy (some rn) = true) :
    handle_root_node ad_group_id (some rn) (some ListingGroupType.subdivision)
      cpc cid = (some rn, [], false) := by
  simp [handle_root_node, hrn]

theorem handle_root_node_no_root (ad_group_id : Int)
    (rt : Option ListingGroupType) (cpc : Int) (cid : String)
    (rn : Option String) (hrn : optStrTruthy rn = false) :
    handle_root_node ad_group_id rn rt cpc cid =
      (some (temp_root_path cid ad_group_id),
       [root_create_op ad_group_id cid, catchall_create_op ad_group_id cpc cid],
       true) := by
  simp [handle_root_node, hrn]

theorem handle_root_node_unit_root (ad_group_id : Int) (rn : String)
    (cpc : Int) (cid : String) (hrn : optStrTruthy (some rn) = true) :
    handle_root_node ad_group_id (some rn) (some ListingGroupType.unit)
      cpc cid =
      (some (temp_root_path cid ad_group_id),
       [AdsOp.remove rn, root_create_op ad_group_id cid,
        catchall_create_op ad_group_id cpc cid],
       true) := by
  simp [handle_root_node, hrn]

/-- Python set semantics lemma: membership in `list(set(l))` is membership
in `l` minus the already-seen accumulator. -/
theorem py_set_go_mem_iff (l : List String) :
    ∀ seen a, a ∈ py_set_go seen l ↔ (a ∈ l ∧ a ∉ seen) := by
  induction l with
  | nil =>
      intro seen a
      simp [py_set_go]
  | cons b rest ih =>
      intro seen a
      show a ∈ (if seen.contains b then py_set_go seen rest
        else b :: py_set_go (b :: seen) rest) ↔ _
      by_cases hb : seen.contains b = true
      · rw [if_pos hb, ih seen a]
        constructor
        · rintro ⟨h1, h2⟩
          exact ⟨List.mem_cons_of_mem _ h1, h2⟩
        · rintro ⟨h1, h2⟩
          rcases List.mem_cons.mp h1 with rfl | h1
          · exact absurd ((containsStr_iff _ _).mp hb) h2
          · exact ⟨h1, h2⟩
      · have hb0 : seen.contains b = false := Bool.not_eq_true _ ▸ hb
        rw [if_neg hb]
        constructor
        · intro h
          rcases List.mem_cons.mp h with rfl | h
          · exact ⟨List.mem_cons_self _ _, not_mem_of_contains_false hb0⟩
          · obtain ⟨h1, h2⟩ := (ih (b :: seen) a).mp h
            exact ⟨List.mem_cons_of_mem _ h1,
              fun hc => h2 (List.mem_cons_of_mem _ hc)⟩
        · rintro ⟨h1, h2⟩
          rcases List.mem_cons.mp h1 with rfl | h1
          · exact List.mem_cons_self _ _
          · by_cases hab : a = b
            · subst hab
              exact List.mem_cons_self _ _
            · exact List.mem_cons_of_mem _ ((ih (b :: seen) a).mpr
                ⟨h1, fun hc => (List.mem_cons.mp hc).elim hab h2⟩)

/-- `list(set(l))` has no duplicates. -/
theorem py_set_go_nodup (l : List String) :
    ∀ seen, (py_set_go seen l).Nodup := by
  induction l with
  | nil =>
      intro seen
      simp [py_set_go]
  | cons b rest ih =>
      intro seen
      show (if seen.contains b then py_set_go seen rest
        else b :: py_set_go (b :: seen) rest).Nodup
      by_cases hb : seen.contains b = true
      · rw [if_pos hb]
        exact ih seen
      · rw [if_neg hb]
        refine List.nodup_cons.mpr ⟨?_, ih (b :: seen)⟩
        intro hmem
        exact ((py_set_go_mem_iff rest (b :: seen) b).mp hmem).2
          (List.mem_cons_self _ _)

theorem py_set_list_mem_iff (l : List String) (a : String) :
    a ∈ py_set_list l ↔ a ∈ l := by
  unfold py_set_list
  rw [py_set_go_mem_iff]
  simp

theorem py_set_list_nodup (l : List String) : (py_set_list l).Nodup :=
  py_set_go_nodup l []

/-- In a duplicate-free list, at most one element equals any given value. -/
theorem countP_eq_le_one_of_nodup (dl : List String) (oid : String)
    (h : dl.Nodup) : dl.countP (fun o => decide (o = oid)) ≤ 1 := by
  induction dl with
  | nil => simp
  | cons a rest ih =>
      obtain ⟨ha, hrest⟩ := List.nodup_cons.mp h
      rw [List.countP_cons]
      by_cases hao : a = oid
      · subst hao
        have h0 : rest.countP (fun o => decide (o = a)) = 0 := by
          rw [List.countP_eq_zero]
          intro b hb hbeq
          have hba : b = a := of_decide_eq_true hbeq
          subst hba
          exact ha hb
        simp [h0]
      · simpa [hao] using ih hrest

theorem is_create_for_offer_create_op (ad_group_id : Int) (o root : String)
    (cpc : Int) (cid oid : String) :
    is_create_for_offer oid (create_offer_operation ad_group_id o root cpc cid)
      ↔ o = oid := by
  simp [is_create_for_offer, create_offer_operation]

/-- The root-handling operations never create an offer leaf. -/
theorem handle_root_ops_no_offer (ad_group_id : Int) (rn : Option String)
    (rt : Option ListingGroupType) (cpc : Int) (cid : String) (oid : String) :
    ∀ op ∈ (handle_root_node ad_group_id rn rt cpc cid).2.1,
      ¬ is_create_for_offer oid op := by
  intro op hop
  unfold handle_root_node at hop
  by_cases hc : (!(optStrTruthy rn) || rt == some ListingGroupType.unit) = true
  · rw [if_pos hc] at hop
    simp only [] at hop
    rcases List.mem_append.mp hop with h | h
    · by_cases ht : optStrTruthy rn = true
      · rw [if_pos ht] at h
        obtain rfl : op = AdsOp.remove (rn.getD "") := by simpa using h
        simp [is_create_for_offer]
      · rw [if_neg ht] at h
        cases h
    · rcases List.mem_cons.mp h with rfl | h
      · simp [is_create_for_offer, root_create_op]
      · obtain rfl : op = catchall_create_op ad_group_id cpc cid := by
          simpa using h
        simp [is_create_for_offer, catchall_create_op]
  · rw [if_neg hc] at hop
    cases hop

/-- `add_offers_to_ad_group` with an existing truthy SUBDIVISION root: the
batch is exactly the leaf operations for the distinct requested offers not
already present, and the mutate call happens iff that batch is non-empty. -/
theorem add_offers_subdiv_eq (ad_group_id : Int) (offer_ids existing : List String)
    (rn cid : String) (cpc : Option Int) (hrn : optStrTruthy (some rn) = true) :
    add_offers_to_ad_group ad_group_id offer_ids (some rn)
      (some ListingGroupType.subdivision) existing cid cpc =
      (if (((py_set_list offer_ids).filter
            (fun oid => !(existing.contains oid))).map
          (fun oid => create_offer_operation ad_group_id oid rn
            (cpc.getD 10000) cid)).isEmpty
       then ({ operations := [], mutate_called := false } : MutateOutcome)
       else ⟨((py_set_list offer_ids).filter
            (fun oid => !(existing.contains oid))).map
          (fun oid => create_offer_operation ad_group_id oid rn
            (cpc.getD 10000) cid), true⟩) := by
  simp [add_offers_to_ad_group,
    handle_root_node_subdivision ad_group_id rn (cpc.getD 10000) cid hrn]

/-- `add_offers_to_ad_group` with no existing root: one create-root, one
catch-all, then one leaf per distinct requested offer. -/
theorem add_offers_no_root_eq (ad_group_id : Int) (offer_ids existing : List String)
    (cid : String) (cpc : Option Int) :
    add_offers_to_ad_group ad_group_id offer_ids none none existing cid cpc =
      ⟨root_create_op ad_group_id cid ::
        catchall_create_op ad_group_id (cpc.getD 10000) cid ::
        (py_set_list offer_ids).map (fun oid =>
          create_offer_operation ad_group_id oid (temp_root_path cid ad_group_id)
            (cpc.getD 10000) cid),
       true⟩ := by
  simp [add_offers_to_ad_group,
    handle_root_node_no_root ad_group_id none (cpc.getD 10000) cid none rfl]

/-- `add_offers_to_ad_group` with an existing truthy UNIT root: one remove,
one create-root, one catch-all, then one leaf per distinct requested
offer. -/
theorem add_offers_unit_eq (ad_group_id : Int) (offer_ids existing : List String)
    (rn cid : String) (cpc : Option Int) (hrn : optStrTruthy (some rn) = true) :
    add_offers_to_ad_group ad_group_id offer_ids (some rn)
      (some ListingGroupType.unit) existing cid cpc =
      ⟨AdsOp.remove rn :: root_create_op ad_group_id cid ::
        catchall_create_op ad_group_id (cpc.getD 10000) cid ::
        (py_set_list offer_ids).map (fun oid =>
          create_offer_operation ad_group_id oid (temp_root_path cid ad_group_id)
            (cpc.getD 10000) cid),
       true⟩ := by
  simp [add_offers_to_ad_group,
    handle_root_node_unit_root ad_group_id rn (cpc.getD 10000) cid hrn]

/-! ## Claim C3 -/

/-- C3: with an existing SUBDIVISION root, an offer already present among
the fetched existing leaves yields no create operation, and when every
requested offer is already present the batch is empty, no mutate call is
issued and the call reports success with zero changes. -/
theorem C3_idempotent_existing (ad_group_id : Int)
    (offer_ids existing : List String) (rn cid : String) (cpc : Option Int)
    (hrn : rn ≠ "") :
    (∀ oid ∈ existing, ∀ op ∈ (add_offers_to_ad_group ad_group_id offer_ids
        (some rn) (some ListingGroupType.subdivision) existing cid cpc).operations,
      ¬ is_create_for_offer oid op) ∧
    (offer_ids ⊆ existing →
      add_offers_to_ad_group ad_group_id offer_ids (some rn)
        (some ListingGroupType.subdivision) existing cid cpc =
        { operations := [], mutate_called := false }) := by
  have htr : optStrTruthy (some rn) = true := by
    simp [optStrTruthy, hrn]
  rw [add_offers_subdiv_eq ad_group_id offer_ids existing rn cid cpc htr]
  constructor
  · intro oid hoid op hop
    by_cases he : (((py_set_list offer_ids).filter
        (fun o => !(existing.contains o))).map
        (fun o => create_offer_operation ad_group_id o rn
          (cpc.getD 10000) cid)).isEmpty = true
    · rw [if_pos he] at hop
      cases hop
    · rw [if_neg he] at hop
      obtain ⟨o, ho, rfl⟩ := List.mem_map.mp hop
      obtain ⟨ho1, ho2⟩ := List.mem_filter.mp ho
      intro hoffer
      obtain rfl : o = oid :=
        (is_create_for_offer_create_op ad_group_id o rn (cpc.getD 10000)
          cid oid).mp hoffer
      rw [(containsStr_iff existing o).mpr hoid] at ho2
      cases ho2
  · intro hsub
    have hempty : (py_set_list offer_ids).filter
        (fun o => !(existing.contains o)) = [] := by
      rw [List.filter_eq_nil_iff]
      intro a ha
      have ha2 : a ∈ offer_ids := (py_set_list_mem_iff offer_ids a).mp ha
      rw [(containsStr_iff existing a).mpr (hsub ha2)]
      simp
    rw [hempty]
    simp

/-- C3 (witness): offer "A" already present under the root means an empty
batch, no mutate call, zero changes. -/
theorem C3_witness :
    add_offers_to_ad_group 1 ["A"] (some "root")
      (some ListingGroupType.subdivision) ["A"] "c" none =
      { operations := [], mutate_called := false } :=
  (C3_idempotent_existing 1 ["A"] ["A"] "root" "c" none (by decide)).2 (by decide)

/-! ## Claim C6 -/

/-- C6: with no existing root node, the batch contains exactly one create of
a SUBDIVISION root and exactly one create of the catch-all UNIT leaf beneath
it, and both precede every requested-offer leaf operation. -/
theorem C6_new_root_ops (ad_group_id : Int) (offer_ids existing : List String)
    (cid : String) (cpc : Option Int) :
    ((add_offers_to_ad_group ad_group_id offer_ids none none existing cid
        cpc).operations.countP
      (fun op => decide (is_create_subdivision op)) = 1) ∧
    ((add_offers_to_ad_group ad_group_id offer_ids none none existing cid
        cpc).operations.countP
      (fun op => decide (is_create_catchall (temp_root_path cid ad_group_id) op))
        = 1) ∧
    (∃ leaves, (add_offers_to_ad_group ad_group_id offer_ids none none existing
        cid cpc).operations =
      root_create_op ad_group_id cid ::
        catchall_create_op ad_group_id (cpc.getD 10000) cid :: leaves ∧
      ∀ op ∈ leaves, is_offer_leaf op) := by
  rw [add_offers_no_root_eq ad_group_id offer_ids existing cid cpc]
  refine ⟨?_, ?_, ?_⟩
  · simp [List.countP_cons, List.countP_map, List.countP_eq_zero,
      is_create_subdivision, root_create_op, catchall_create_op,
      create_offer_operation, Function.comp]
  · simp [List.countP_cons, List.countP_map, List.countP_eq_zero,
      is_create_catchall, root_create_op, catchall_create_op,
      create_offer_operation, Function.comp]
  · refine ⟨_, rfl, ?_⟩
    intro op hop
    obtain ⟨o, ho, rfl⟩ := List.mem_map.mp hop
    exact ⟨o, by simp [is_create_for_offer, create_offer_operation]⟩

/-- C6 (witness): the count of SUBDIVISION creates at a concrete call. -/
theorem C6_witness :
    (add_offers_to_ad_group 1 ["A", "B"] none none [] "c" none).operations.countP
      (fun op => decide (is_create_subdivision op)) = 1 :=
  (C6_new_root_ops 1 ["A", "B"] [] "c" none).1

/-! ## Claim C7 -/

/-- C7: with an existing root of kind UNIT, the batch contains exactly one
remove operation, it precedes the create-root operations, and exactly one
SUBDIVISION root create occurs — at most one root replacement per call. -/
theorem C7_unit_root_replaced (ad_group_id : Int)
    (offer_ids existing : List String) (rn cid : String) (cpc : Option Int)
    (hrn : rn ≠ "") :
    ((add_offers_to_ad_group ad_group_id offer_ids (some rn)
        (some ListingGroupType.unit) existing cid cpc).operations.countP
      (fun op => decide (is_remove op)) = 1) ∧
    ((add_offers_to_ad_group ad_group_id offer_ids (some rn)
        (some ListingGroupType.unit) existing cid cpc).operations.countP
      (fun op => decide (is_create_subdivision op)) = 1) ∧
    (∃ leaves, (add_offers_to_ad_group ad_group_id offer_ids (some rn)
        (some ListingGroupType.unit) existing cid cpc).operations =
      AdsOp.remove rn :: root_create_op ad_group_id cid ::
        catchall_create_op ad_group_id (cpc.getD 10000) cid :: leaves ∧
      ∀ op ∈ leaves, is_offer_leaf op) := by
  have htr : optStrTruthy (some rn) = true := by
    simp [optStrTruthy, hrn]
  rw [add_offers_unit_eq ad_group_id offer_ids existing rn cid cpc htr]
  refine ⟨?_, ?_, ?_⟩
  · simp [List.countP_cons, List.countP_map, List.countP_eq_zero,
      is_remove, root_create_op, catchall_create_op,
      create_offer_operation, Function.comp]
  · simp [List.countP_cons, List.countP_map, List.countP_eq_zero,
      is_create_subdivision, root_create_op, catchall_create_op,
      create_offer_operation, Function.comp]
  · refine ⟨_, rfl, ?_⟩
    intro op hop
    obtain ⟨o, ho, rfl⟩ := List.mem_map.mp hop
    exact ⟨o, by simp [is_create_for_offer, create_offer_operation]⟩

/-- C7 (witness): the remove count at a concrete call. -/
theorem C7_witness :
    (add_offers_to_ad_group 1 ["A"] (some "root") (some ListingGroupType.unit)
      [] "c" none).operations.countP (fun op => decide (is_remove op)) = 1 :=
  (C7_unit_root_replaced 1 ["A"] [] "root" "c" none (by decide)).1

/-! ## Claim C10 -/

/-- For any duplicate-free offer list, the root-handling operations followed
by one leaf create per offer contain at most one create for a given offer. -/
theorem countP_root_and_leaves_le_one (ad_group_id : Int) (rn : Option String)
    (rt : Option ListingGroupType) (cpc : Int) (cid oid : String)
    (root : String) (dl : List String) (hdl : dl.Nodup) :
    ((handle_root_node ad_group_id rn rt cpc cid).2.1 ++
      dl.map (fun o => create_offer_operation ad_group_id o root cpc cid)).countP
      (fun op => decide (is_create_for_offer oid op)) ≤ 1 := by
  rw [List.countP_append, List.countP_map]
  have h1 : (handle_root_node ad_group_id rn rt cpc cid).2.1.countP
      (fun op => decide (is_create_for_offer oid op)) = 0 := by
    rw [List.countP_eq_zero]
    intro op hop hpop
    exact handle_root_ops_no_offer ad_group_id rn rt cpc cid oid
      op hop (of_decide_eq_true hpop)
  have h2 : dl.countP ((fun op => decide (is_create_for_offer oid op)) ∘
      (fun o => create_offer_operation ad_group_id o root cpc cid)) ≤ 1 := by
    rw [List.countP_congr (fun o _ => ?_)]
    · exact countP_eq_le_one_of_nodup dl oid hdl
    · simp only [Function.comp, decide_eq_true_eq]
      exact is_create_for_offer_create_op ad_group_id o root cpc cid oid
  omega

/-- C10: the requested offer list is collapsed to its distinct values before
operations are built (the collapsed list is duplicate-free and has the same
membership as the input), so any offer id yields at most one create
operation in the emitted batch, whatever the root scenario. -/
theorem C10_distinct_offers (ad_group_id : Int) (offer_ids : List String)
    (rn : Option String) (rt : Option ListingGroupType)
    (existing : List String) (cid : String) (cpc : Option Int)
    (oid : String) :
    (py_set_list offer_ids).Nodup ∧
    (∀ s, s ∈ py_set_list offer_ids ↔ s ∈ offer_ids) ∧
    (add_offers_to_ad_group ad_group_id offer_ids rn rt existing cid
        cpc).operations.countP
      (fun op => decide (is_create_for_offer oid op)) ≤ 1 := by
  refine ⟨py_set_list_nodup offer_ids,
    fun s => py_set_list_mem_iff offer_ids s, ?_⟩
  unfold add_offers_to_ad_group
  simp only []
  split
  · split
    · simp
    · exact countP_root_and_leaves_le_one ad_group_id rn rt (cpc.getD 10000)
        cid oid _ _ ((py_set_list_nodup offer_ids).filter _)
  · split
    · simp
    · exact countP_root_and_leaves_le_one ad_group_id rn rt (cpc.getD 10000)
        cid oid _ _ ((py_set_list_nodup offer_ids).filter _)

/-- C10 (witness): a duplicated offer id in the request still yields at most
one create operation. -/
theorem C10_witness :
    (add_offers_to_ad_group 1 ["A", "A"] none none [] "c" none).operations.countP
      (fun op => decide (is_create_for_offer "A" op)) ≤ 1 :=
  (C10_distinct_offers 1 ["A", "A"] none none [] "c" none "A").2.2

end ShoppableVideo
